import Mathlib

/-!
Verification of the event-discovery application's core logic:
interaction-window gating, feed filtering and ranking, rating
validation and aggregation, location resolution, and media-URL
resolution.  Timestamps are modelled as integers (milliseconds since
epoch), rating and coordinate values as rationals.
-/

/-! ## Interaction window (backend/src/routes/interactions.ts) -/

def INTERACTION_WINDOW_HOURS : ℤ := 7 * 24

def interactionWindowMs : ℤ := INTERACTION_WINDOW_HOURS * 60 * 60 * 1000

/-- `isInInteractionWindow` from interactions.ts lines 14-19: the window is
open when `now >= endTime && now <= windowEndTime`. -/
def isInInteractionWindow (endsAt now : ℤ) : Bool :=
  decide (endsAt ≤ now) && decide (now ≤ endsAt + interactionWindowMs)

/-! ## Comment sanitisation (interactions.ts lines 10-12):
`body.replace(/https?:\/\/[^\s]+/g, '').trim()`. -/

def jsWhitespace (c : Char) : Bool :=
  (c = ' ') || (c = '\t') || (c = '\n') || (c = '\r')

/-- If the character list begins with a URL scheme, return the remainder
after the scheme; the regex needs `http://` or `https://` literally. -/
def urlRestAt (l : List Char) : Option (List Char) :=
  if ("https://".toList).isPrefixOf l then some (l.drop 8)
  else if ("http://".toList).isPrefixOf l then some (l.drop 7)
  else none

/-- The regex `https?:\/\/[^\s]+` only matches when at least one
non-whitespace character follows the scheme. -/
def urlTailOk (rest : List Char) : Bool :=
  match rest.head? with
  | some c => !(jsWhitespace c)
  | none => false

/-- Fuel-indexed scanner implementing the global regex replacement of
`https?:\/\/[^\s]+` by the empty string; fuel = input length suffices
because each step consumes at least one character. -/
def stripUrlsFuel : ℕ → List Char → List Char
  | 0, _ => []
  | _ + 1, [] => []
  | n + 1, c :: cs =>
    match urlRestAt (c :: cs) with
    | some rest =>
      if urlTailOk rest then
        stripUrlsFuel n (rest.dropWhile (fun d => !(jsWhitespace d)))
      else c :: stripUrlsFuel n cs
    | none => c :: stripUrlsFuel n cs

/-- `.trim()`: drop whitespace from both ends. -/
def jsTrimList (l : List Char) : List Char :=
  ((l.dropWhile jsWhitespace).reverse.dropWhile jsWhitespace).reverse

def sanitizeComment (s : String) : String :=
  String.mk (jsTrimList (stripUrlsFuel s.toList.length s.toList))

def MAX_COMMENT_LENGTH : ℕ := 300

/-! ## POST /api/events/:id/comments (interactions.ts lines 166-258).
Database reads (session, event lookup, going lookup) are inputs. -/

inductive CommentResult where
  | unauthorized
  | notFound
  | mustBeGoing
  | windowClosed
  | emptyComment
  | tooLong
  | posted (body : String)
deriving DecidableEq, Repr

def commentRoute (auth eventExists isGoing : Bool) (endsAt now : ℤ)
    (body : String) : CommentResult :=
  if !auth then .unauthorized
  else if !eventExists then .notFound
  else if !isGoing then .mustBeGoing
  else if !(isInInteractionWindow endsAt now) then .windowClosed
  else
    let sanitized := sanitizeComment body
    if sanitized.length = 0 then .emptyComment
    else if sanitized.length > MAX_COMMENT_LENGTH then .tooLong
    else .posted sanitized

/-! ## Rating validation (interactions.ts lines 21-23):
`rating >= 1.0 && rating <= 5.0 && Math.round(rating * 10) / 10 === rating`. -/

/-- `Math.round`: round half towards positive infinity. -/
def mathRound (q : ℚ) : ℤ := ⌊q + 1 / 2⌋

def validateRating (x : ℚ) : Bool :=
  decide (1 ≤ x) && decide (x ≤ 5) && decide ((mathRound (x * 10) : ℚ) / 10 = x)

/-! ## Going rows and the going routes (interactions.ts lines 27-110). -/

structure GoingRow where
  eventId : String
  userId : String
deriving DecidableEq, Repr

/-- DELETE /api/events/:id/going (interactions.ts lines 76-110): after the
session check the route deletes the (event, user) attendance rows
unconditionally — it never consults the event's start time.  Returns
(success?, new table). -/
def deleteGoingRoute (auth : Bool) (eventId userId : String)
    (going : List GoingRow) : Bool × List GoingRow :=
  if !auth then (false, going)
  else (true, going.filter (fun g => !(g.eventId == eventId && g.userId == userId)))

/-- Client-side guard in frontend/app/event/[id].tsx lines 329-349
(`handleGoingToggle`): when the viewer is marked going, the delete request
is issued only if `now < starts_at`; otherwise a toast error is shown and
no request is made. -/
def frontendUnmarkIssuesDelete (isGoing : Bool) (now startsAt : ℤ) : Bool :=
  isGoing && decide (now < startsAt)

/-! ## Rating rows and POST /api/events/:id/ratings
(interactions.ts lines 562-645). -/

structure RatingRow where
  id : String
  eventId : String
  userId : String
  value : ℚ
deriving DecidableEq, Repr

def hasRatingFor (rs : List RatingRow) (e u : String) : Bool :=
  rs.any (fun r => r.eventId == e && r.userId == u)

/-- Storage-level insert guarded by the unique index
`event_ratings_event_user_unique` on (event_id, user_id)
(db/schema.ts lines 190-194): a duplicate pair makes the insert fail. -/
def dbInsertRatingUnique (rs : List RatingRow) (row : RatingRow) :
    Option (List RatingRow) :=
  if hasRatingFor rs row.eventId row.userId then none else some (rs ++ [row])

inductive RatingResult where
  | unauthorized
  | badValue
  | notFound
  | notGoing
  | windowClosed
  | conflict
  | created (value : ℚ)
deriving DecidableEq, Repr

/-- POST /api/events/:id/ratings: validation, event lookup, going check,
window check, then the insert; the route has no application-side
duplicate pre-check — the caught insert failure yields 409. -/
def postRatingRoute (auth : Bool) (newId eventId userId : String) (value : ℚ)
    (eventExists isGoing : Bool) (endsAt now : ℤ)
    (rs : List RatingRow) : RatingResult × List RatingRow :=
  if !auth then (.unauthorized, rs)
  else if !(validateRating value) then (.badValue, rs)
  else if !eventExists then (.notFound, rs)
  else if !isGoing then (.notGoing, rs)
  else if !(isInInteractionWindow endsAt now) then (.windowClosed, rs)
  else
    match dbInsertRatingUnique rs ⟨newId, eventId, userId, value⟩ with
    | none => (.conflict, rs)
    | some rs2 => (.created value, rs2)

/-! ## Event records and the general feed (backend/src/routes/events.ts). -/

inductive EventStatus where
  | draft
  | published
  | cancelled
deriving DecidableEq, Repr

structure EventRec where
  id : String
  organizerId : String
  title : String
  description : Option String
  region : String
  city : String
  genre : String
  status : EventStatus
  startsAt : ℤ
  endsAt : ℤ
  lat : ℚ
  lng : ℚ
deriving DecidableEq, Repr

structure Filters where
  genre : Option String
  region : Option String
  city : Option String
  search : Option String
deriving Repr

/-- Substring occurrence test on character lists. -/
def listContainsSub (needle : List Char) : List Char → Bool
  | [] => needle.isEmpty
  | c :: cs => needle.isPrefixOf (c :: cs) || listContainsSub needle cs

/-- `ilike '%needle%'`: case-insensitive substring test.  The routes only
add a search condition for a nonempty search string. -/
def lowerContains (hay needle : String) : Bool :=
  listContainsSub (needle.toList.map Char.toLower) (hay.toList.map Char.toLower)

/-- The WHERE clause of GET /api/events (events.ts lines 89-101):
status = 'published' always, plus the optional equality and search
conditions, all conjoined. -/
def feedWhere (f : Filters) (e : EventRec) : Bool :=
  (e.status == EventStatus.published)
  && (match f.genre with | none => true | some g => e.genre == g)
  && (match f.region with | none => true | some r => e.region == r)
  && (match f.city with | none => true | some c => e.city == c)
  && (match f.search with
      | none => true
      | some s =>
        lowerContains e.title s
        || (match e.description with
            | none => false
            | some d => lowerContains d s))

/-! ## DELETE /api/events/:id (events.ts lines 646-699) with cascade
(db/schema.ts: all child tables reference events with onDelete cascade). -/

structure ChildRow where
  id : String
  eventId : String
deriving DecidableEq, Repr

structure Db where
  events : List EventRec
  going : List GoingRow
  ratings : List RatingRow
  comments : List ChildRow
  images : List ChildRow
deriving Repr

def cascadeDeleteEvent (eventId : String) (db : Db) : Db :=
  { events := db.events.filter (fun e => !(e.id == eventId))
    going := db.going.filter (fun g => !(g.eventId == eventId))
    ratings := db.ratings.filter (fun r => !(r.eventId == eventId))
    comments := db.comments.filter (fun c => !(c.eventId == eventId))
    images := db.images.filter (fun i => !(i.eventId == eventId)) }

inductive DeleteEventResult where
  | unauthorized
  | notFound
  | forbidden
  | forbiddenEnded
  | deleted
deriving DecidableEq, Repr

/-- DELETE /api/events/:id: session check, event lookup, ownership check
for non-admins, then the ended-event refusal for non-admins
(`endsAt.getTime() < Date.now()`), then the cascading delete. -/
def deleteEventRoute (auth : Bool) (callerId : String) (isAdmin : Bool)
    (eventId : String) (now : ℤ) (db : Db) : DeleteEventResult × Db :=
  if !auth then (.unauthorized, db)
  else
    match db.events.find? (fun e => e.id == eventId) with
    | none => (.notFound, db)
    | some ev =>
      if !isAdmin && !(ev.organizerId == callerId) then (.forbidden, db)
      else if !isAdmin && decide (ev.endsAt < now) then (.forbiddenEnded, db)
      else (.deleted, cascadeDeleteEvent eventId db)

/-! ## Geographic helpers (frontend utils/geo.ts = src/unnamed/part_004). -/

structure LatLng where
  lat : ℚ
  lng : ℚ
deriving DecidableEq, Repr

/-- The static `CITY_FALLBACK_COORDS` table. -/
def CITY_FALLBACK_COORDS (key : String) : Option LatLng :=
  if key == "ljubljana" then some ⟨46.0569, 14.5058⟩
  else if key == "maribor" then some ⟨46.5547, 15.6459⟩
  else if key == "celje" then some ⟨46.2397, 15.2677⟩
  else if key == "kranj" then some ⟨46.2389, 14.3555⟩
  else if key == "koper" then some ⟨45.5481, 13.7301⟩
  else if key == "novo mesto" then some ⟨45.8011, 15.1691⟩
  else if key == "ptuj" then some ⟨46.4203, 15.8697⟩
  else if key == "murska sobota" then some ⟨46.6611, 16.1664⟩
  else if key == "slovenia" then some ⟨46.1512, 14.9955⟩
  else none

/-- Fuel-indexed replacement of every maximal whitespace run by a single
space (`.replace(/\s+/g, " ")`); fuel = input length suffices. -/
def collapseWsFuel : ℕ → List Char → List Char
  | 0, _ => []
  | _ + 1, [] => []
  | n + 1, c :: cs =>
    if jsWhitespace c then ' ' :: collapseWsFuel n (cs.dropWhile jsWhitespace)
    else c :: collapseWsFuel n cs

/-- `normalizeCityKey`: `(city ?? "").trim().toLowerCase().replace(/\s+/g, " ")`,
with `.toLowerCase()` as a per-character lowering (the city names involved
are plain Latin text). -/
def normalizeCityKey (city : Option String) : String :=
  let t := (jsTrimList (city.getD "").toList).map Char.toLower
  String.mk (collapseWsFuel t.length t)

/-- `coordsForCity`: the table entry for a truthy (nonempty) normalized key. -/
def coordsForCity (city : Option String) : Option LatLng :=
  let key := normalizeCityKey city
  if key == "" then none else CITY_FALLBACK_COORDS key

/-- One feed row as seen by the client ranking code: `toFiniteNumber` of
the raw lat/lng fields is modelled by the optional rational fields
(`none` = missing or non-finite). -/
structure FeedEvent where
  id : String
  city : Option String
  lat : Option ℚ
  lng : Option ℚ
deriving DecidableEq, Repr

/-- `resolveEventCoords`: finite lat/lng wins, else the city fallback. -/
def resolveEventCoords (e : FeedEvent) : Option LatLng :=
  match e.lat, e.lng with
  | some la, some ln => some ⟨la, ln⟩
  | some _, none => coordsForCity e.city
  | none, some _ => coordsForCity e.city
  | none, none => coordsForCity e.city

def sloveniaCoords : LatLng := ⟨46.1512, 14.9955⟩

/-- `loadLocation` from the home screen (src/unnamed/part_008 lines
133-187), as a function of its external reads: the persisted coordinate,
the permission grant, the device GPS read (`none` models the read
throwing), and the persisted selected city.  A GPS failure lands in the
outer catch, which falls back to the Slovenia coordinate directly. -/
def loadLocation (stored : Option LatLng) (permissionGranted : Bool)
    (gps : Option LatLng) (selectedCity : Option String) : LatLng :=
  match stored with
  | some c => c
  | none =>
    if permissionGranted then
      match gps with
      | some c => c
      | none => sloveniaCoords
    else
      match coordsForCity selectedCity with
      | some c => c
      | none => sloveniaCoords

/-! ## Distance ranking (src/unnamed/part_008 lines 268-286).
The haversine computation (`calculateDistance`) is transcendental, so it
is abstracted as an arbitrary distance function; every claim about the
ranking holds for each such function. -/

/-- The distance key of a feed row: the distance to the resolved
coordinate, or `none` when no coordinate can be determined
(`distance: undefined` in the source). -/
def distKey (dist : LatLng → LatLng → ℚ) (viewer : LatLng) (e : FeedEvent) :
    Option ℚ :=
  (resolveEventCoords e).map (fun c => dist viewer c)

/-- The sort comparator `(a.distance ?? +Infinity) - (b.distance ?? +Infinity)`
as a total preorder: `none` behaves as plus infinity, and two missing
distances compare equal (the ECMAScript sort treats a NaN comparator
result as 0). -/
def optDistLE (a b : Option ℚ) : Bool :=
  match a, b with
  | some x, some y => decide (x ≤ y)
  | some _, none => true
  | none, some _ => false
  | none, none => true

/-- The ranked feed: `Array.prototype.sort` is a stable sort, modelled by
insertion sort over the comparator's preorder. -/
def rankEvents (dist : LatLng → LatLng → ℚ) (viewer : LatLng)
    (events : List FeedEvent) : List FeedEvent :=
  List.insertionSort
    (fun a b => optDistLE (distKey dist viewer a) (distKey dist viewer b) = true)
    events

/-- GET /api/events (events.ts lines 89-185): filter by the WHERE clause,
then order by ascending distance (the intermediate SQL `ORDER BY
starts_at DESC` only fixes the pre-sort order, which the distance sort
then rearranges; membership is unaffected). -/
def backendFeed (dist : LatLng → LatLng → ℚ) (viewer : LatLng) (f : Filters)
    (events : List EventRec) : List EventRec :=
  List.insertionSort
    (fun a b => decide (dist viewer ⟨a.lat, a.lng⟩ ≤ dist viewer ⟨b.lat, b.lng⟩))
    (events.filter (feedWhere f))

/-- The frontend feed query (src/unnamed/part_008 lines 222-250):
status = 'published' always; with an organizer filter only the organizer
equality is added, otherwise the not-yet-ended condition and the
interactive region/genre/title filters. -/
def frontendFeedWhere (organizerFilter : Option String) (now : ℤ)
    (f : Filters) (e : EventRec) : Bool :=
  (e.status == EventStatus.published)
  && (match organizerFilter with
      | some oid => e.organizerId == oid
      | none =>
        decide (now ≤ e.endsAt)
        && (match f.region with | none => true | some r => e.region == r)
        && (match f.genre with | none => true | some g => e.genre == g)
        && (match f.search with | none => true | some s => lowerContains e.title s))

def frontendFetchEvents (organizerFilter : Option String) (now : ℤ)
    (f : Filters) (events : List EventRec) : List EventRec :=
  events.filter (frontendFeedWhere organizerFilter now f)

/-! ## Average rating aggregation (events.ts lines 103-185).
The feed query left-joins events to event_going and event_ratings and
groups by event, so within one event's group the rating column holds
each rating once per going row (or once if there are none), with NULL
when the event has no ratings; SQL `avg` ignores NULLs and returns NULL
on an empty set. -/

def sqlAvg (col : List (Option ℚ)) : Option ℚ :=
  let vs := col.filterMap id
  if vs.isEmpty then none else some (vs.sum / vs.length)

/-- The rating column of one event's group after the two left joins:
`goingCount` going rows (at least one row survives a left join) crossed
with the ratings. -/
def groupRatingColumn (goingCount : ℕ) (ratings : List ℚ) : List (Option ℚ) :=
  if ratings.isEmpty then List.replicate (max 1 goingCount) none
  else ((List.replicate (max 1 goingCount) ratings).flatten).map some

/-- The route's final mapping
`avgRating: event.avgRating ? parseFloat(event.avgRating) : null`,
where the SQL NULL and the falsy string "0" both map to null. -/
def feedAvgRating (goingCount : ℕ) (ratings : List ℚ) : Option ℚ :=
  match sqlAvg (groupRatingColumn goingCount ratings) with
  | none => none
  | some v => if v = 0 then none else some v

/-! ## Media-URL resolution (src/utils/storage.ts). -/

def DEFAULT_EXPIRES_IN : ℕ := 60 * 60

def signedMarker (bucket : String) : String :=
  "/storage/v1/object/sign/" ++ bucket ++ "/"

def publicMarker (bucket : String) : String :=
  "/storage/v1/object/public/" ++ bucket ++ "/"

def genericMarker (bucket : String) : String :=
  "/storage/v1/object/" ++ bucket ++ "/"

/-- `value.indexOf(marker) >= 0`. -/
def containsMarker (value marker : String) : Bool :=
  listContainsSub marker.toList value.toList

/-- The remainder after the first occurrence of the needle. -/
def afterFirstSub (needle : List Char) : List Char → List Char
  | [] => []
  | c :: cs =>
    if needle.isPrefixOf (c :: cs) then (c :: cs).drop needle.length
    else afterFirstSub needle cs

/-- `value.slice(index + marker.length)`: everything after the first
occurrence of the marker. -/
def sliceAfterMarker (value marker : String) : String :=
  String.mk (afterFirstSub marker.toList value.toList)

/-- `.split("?")[0]`. -/
def beforeQuery (s : String) : String :=
  String.mk (s.toList.takeWhile (fun c => !(c = '?')))

/-- `value.replace(/^\/+/, "")`. -/
def stripLeadingSlashes (s : String) : String :=
  String.mk (s.toList.dropWhile (fun c => c = '/'))

/-- `value.startsWith(prefixStr)`. -/
def jsStartsWith (s prefixStr : String) : Bool :=
  prefixStr.toList.isPrefixOf s.toList

/-- `tryExtractBucketPath` (storage.ts lines 22-48). -/
def tryExtractBucketPath (bucket value : String) : Option String :=
  if !(jsStartsWith value "http") then some (stripLeadingSlashes value)
  else if containsMarker value (signedMarker bucket) then
    some (beforeQuery (sliceAfterMarker value (signedMarker bucket)))
  else if containsMarker value (publicMarker bucket) then
    some (beforeQuery (sliceAfterMarker value (publicMarker bucket)))
  else if containsMarker value (genericMarker bucket) then
    some (beforeQuery (sliceAfterMarker value (genericMarker bucket)))
  else none

structure CacheEntry where
  url : String
  expiresAtMs : ℕ
deriving DecidableEq, Repr

def cacheKeyStr (bucket path : String) (exp : ℕ) : String :=
  bucket ++ "|" ++ toString exp ++ "|" ++ path

def cacheGet (cache : List (String × CacheEntry)) (k : String) :
    Option CacheEntry :=
  (cache.find? (fun p => p.1 == k)).map (fun p => p.2)

def cacheSet (cache : List (String × CacheEntry)) (k : String)
    (e : CacheEntry) : List (String × CacheEntry) :=
  (k, e) :: cache.filter (fun p => !(p.1 == k))

/-- The signing step and its fallbacks (storage.ts lines 74-102): the
signing call and the public-URL call are each wrapped in try/catch, so
their outcomes are modelled as `Option` inputs (`none` = error or
throw); on both failing the original value is returned and the cache is
untouched. -/
def resolveViaServices (bucket path : String) (exp : ℕ) (value : String)
    (cache : List (String × CacheEntry)) (nowMs : ℕ)
    (signResult publicResult : Option String) :
    String × List (String × CacheEntry) :=
  match signResult with
  | some u => (u, cacheSet cache (cacheKeyStr bucket path exp) ⟨u, nowMs + exp * 1000⟩)
  | none =>
    match publicResult with
    | some u => (u, cacheSet cache (cacheKeyStr bucket path exp) ⟨u, nowMs + exp * 1000⟩)
    | none => (value, cache)

/-- `resolveStorageUrl` (storage.ts lines 55-103): empty value short
circuit, the keep-signed-URLs check, then cache lookup with the
30-second safety margin, then the service fallbacks. -/
def resolveStorageUrl (bucket value : String) (expiresIn : Option ℕ)
    (cache : List (String × CacheEntry)) (nowMs : ℕ)
    (signResult publicResult : Option String) :
    Option String × List (String × CacheEntry) :=
  if value == "" then (none, cache)
  else if jsStartsWith value "http" && containsMarker value (signedMarker bucket) then
    (some value, cache)
  else
    let exp := expiresIn.getD DEFAULT_EXPIRES_IN
    match tryExtractBucketPath bucket value with
    | none => (some value, cache)
    | some path =>
      match cacheGet cache (cacheKeyStr bucket path exp) with
      | some entry =>
        if decide (nowMs + 30000 < entry.expiresAtMs) then (some entry.url, cache)
        else
          let r := resolveViaServices bucket path exp value cache nowMs signResult publicResult
          (some r.1, r.2)
      | none =>
        let r := resolveViaServices bucket path exp value cache nowMs signResult publicResult
        (some r.1, r.2)

/-! ## Theorems -/

theorem interactionWindowMs_eq : interactionWindowMs = 604800000 := by
  decide

theorem isInInteractionWindow_iff (endsAt now : ℤ) :
    isInInteractionWindow endsAt now = true ↔
      endsAt ≤ now ∧ now ≤ endsAt + 604800000 := by
  simp [isInInteractionWindow, interactionWindowMs_eq]

theorem sanitizeComment_nice : sanitizeComment "Nice" = "Nice" := by decide

theorem nice_length : ("Nice" : String).length = 4 := by decide

/-- C5: `validateRating` accepts a rational exactly when it lies in
[1, 5] and is an integer multiple of one tenth (equivalently, equals
itself rounded to one decimal place); in particular 1.0, 5.0 and 3.5
are accepted while 0.9, 5.1 and 3.33 are rejected. -/
theorem validateRating_spec :
    (∀ x : ℚ, validateRating x = true ↔
      (1 ≤ x ∧ x ≤ 5 ∧ ∃ n : ℤ, x = (n : ℚ) / 10))
    ∧ validateRating 1 = true ∧ validateRating 5 = true
    ∧ validateRating 3.5 = true ∧ validateRating 0.9 = false
    ∧ validateRating 5.1 = false ∧ validateRating 3.33 = false := by
  refine ⟨?_, ?_, ?_, ?_, ?_, ?_, ?_⟩
  · intro x
    have hround : ((mathRound (x * 10) : ℚ) / 10 = x) ↔ ∃ n : ℤ, x = (n : ℚ) / 10 := by
      constructor
      · intro h
        exact ⟨mathRound (x * 10), h.symm⟩
      · rintro ⟨n, rfl⟩
        have h1 : (n : ℚ) / 10 * 10 = (n : ℚ) := by
          field_simp
        have h2 : mathRound ((n : ℚ) / 10 * 10) = n := by
          rw [h1]
          unfold mathRound
          rw [Int.floor_int_add]
          norm_num
        rw [h2]
    simp only [validateRating, Bool.and_eq_true, decide_eq_true_eq]
    rw [hround]
    tauto
  all_goals
    simp only [validateRating, mathRound, Bool.and_eq_true, decide_eq_true_eq]
    norm_num [Int.floor_eq_iff]

/-- C1 counterexample: for the spec's example event (starts
2026-03-01T22:00Z = 1772402400000 ms, ends 2026-03-02T04:00Z =
1772424000000 ms), at the instant now = end — which satisfies
start ≤ now ≤ end, i.e. the event is still LIVE, and violates
end < now — the code's interaction window is already open and a going
viewer's comment is accepted. -/
theorem commentWindow_open_at_end_instant :
    commentRoute true true true 1772424000000 1772424000000 "Nice" =
      CommentResult.posted "Nice"
    ∧ (1772402400000 : ℤ) ≤ 1772424000000
    ∧ ¬((1772424000000 : ℤ) < 1772424000000) := by
  refine ⟨?_, by decide, by decide⟩
  simp [commentRoute, isInInteractionWindow_iff, sanitizeComment_nice, nice_length,
    MAX_COMMENT_LENGTH]

/-- C1 amended: the post-event window that gates comment (and, via the
same `isInInteractionWindow`, rate and upload-image) is open exactly when
end ≤ now ≤ end + 168 hours — the window already opens at the instant the
event ends, not strictly after it.  For the spec's example event: 6 hours
after the end a going viewer's comment is accepted, 169 hours after the
end it is refused, and at any instant strictly before the end (UPCOMING
or LIVE) it is refused. -/
theorem commentRoute_window_spec :
    (∀ auth eventExists isGoing : Bool, ∀ endsAt now : ℤ,
      commentRoute auth eventExists isGoing endsAt now "Nice" =
          CommentResult.posted "Nice" ↔
        (auth = true ∧ eventExists = true ∧ isGoing = true
          ∧ endsAt ≤ now ∧ now ≤ endsAt + 604800000))
    ∧ commentRoute true true true 1772424000000 1772445600000 "Nice" =
        CommentResult.posted "Nice"
    ∧ commentRoute true true true 1772424000000 1773032400000 "Nice" =
        CommentResult.windowClosed
    ∧ (∀ now : ℤ, now < 1772424000000 →
        commentRoute true true true 1772424000000 now "Nice" =
          CommentResult.windowClosed) := by
  have hmain : ∀ auth eventExists isGoing : Bool, ∀ endsAt now : ℤ,
      commentRoute auth eventExists isGoing endsAt now "Nice" =
          CommentResult.posted "Nice" ↔
        (auth = true ∧ eventExists = true ∧ isGoing = true
          ∧ endsAt ≤ now ∧ now ≤ endsAt + 604800000) := by
    intro auth eventExists isGoing endsAt now
    cases auth <;> cases eventExists <;> cases isGoing <;>
      simp [commentRoute, isInInteractionWindow_iff, sanitizeComment_nice,
        nice_length, MAX_COMMENT_LENGTH]
  refine ⟨hmain, ?_, ?_, ?_⟩
  · rw [hmain]
    refine ⟨rfl, rfl, rfl, by decide, by decide⟩
  · have h := hmain true true true 1772424000000 1773032400000
    simp [commentRoute, isInInteractionWindow_iff, sanitizeComment_nice,
      nice_length, MAX_COMMENT_LENGTH]
  · intro now hn
    simp [commentRoute, isInInteractionWindow_iff, sanitizeComment_nice,
      nice_length, MAX_COMMENT_LENGTH]
    intro h
    omega

/-- Witness for the amended C1 theorem at now one millisecond before the
end: the comment is refused while the event is still LIVE. -/
theorem commentRoute_window_spec_witness :
    commentRoute true true true 1772424000000 1772423999999 "Nice" =
      CommentResult.windowClosed :=
  commentRoute_window_spec.2.2.2 1772423999999 (by decide)

/-- C3: the authoritative backend route DELETE /api/events/:id/going
performs the deletion with no start-time check: for an event that started
at 0 and ends at 100, at now = 50 (so now ≥ start and the event is LIVE)
the route reports success and the attendance row for ("e1", "u1") is
gone — while the client-side guard for the same action refuses to issue
the delete once now ≥ start. -/
theorem deleteGoing_after_start_removes_row :
    deleteGoingRoute true "e1" "u1" [⟨"e1", "u1"⟩] = (true, [])
    ∧ frontendUnmarkIssuesDelete true 50 0 = false
    ∧ (0 : ℤ) ≤ 50 := by
  refine ⟨by decide, by decide, by decide⟩

/-- C10: for an event whose end time is in the past (matched in the
database and with endsAt < now), a non-admin caller's delete request —
whether or not they are the organizer — is refused and the whole
database, dependent records included, is unchanged, while an admin's
delete succeeds and cascades. -/
theorem deleteEventRoute_ended_policy (db : Db) (eventId callerId : String)
    (ev : EventRec) (now : ℤ)
    (hfind : db.events.find? (fun e => e.id == eventId) = some ev)
    (hend : ev.endsAt < now) :
    ((deleteEventRoute true callerId false eventId now db).1 ≠ .deleted
      ∧ (deleteEventRoute true callerId false eventId now db).2 = db)
    ∧ ((deleteEventRoute true callerId true eventId now db).1 = .deleted
      ∧ (deleteEventRoute true callerId true eventId now db).2 =
          cascadeDeleteEvent eventId db) := by
  unfold deleteEventRoute
  rw [hfind]
  by_cases horg : (ev.organizerId == callerId) = true <;>
    simp [horg, hend]

/-- Witness for C10 at a one-event database with one dependent row of
each kind: the organizer's own delete is refused and nothing changes;
the admin's delete succeeds. -/
theorem deleteEventRoute_ended_policy_witness :
    ((deleteEventRoute true "org" false "e1" 200
        ⟨[⟨"e1", "org", "T", none, "R", "C", "techno", .published, 0, 100, 46, 14⟩],
          [⟨"e1", "u1"⟩], [⟨"r1", "e1", "u1", 3⟩], [⟨"c1", "e1"⟩], [⟨"i1", "e1"⟩]⟩).1
        ≠ .deleted
      ∧ (deleteEventRoute true "org" false "e1" 200
        ⟨[⟨"e1", "org", "T", none, "R", "C", "techno", .published, 0, 100, 46, 14⟩],
          [⟨"e1", "u1"⟩], [⟨"r1", "e1", "u1", 3⟩], [⟨"c1", "e1"⟩], [⟨"i1", "e1"⟩]⟩).2 =
          ⟨[⟨"e1", "org", "T", none, "R", "C", "techno", .published, 0, 100, 46, 14⟩],
            [⟨"e1", "u1"⟩], [⟨"r1", "e1", "u1", 3⟩], [⟨"c1", "e1"⟩], [⟨"i1", "e1"⟩]⟩)
    ∧ ((deleteEventRoute true "org" true "e1" 200
        ⟨[⟨"e1", "org", "T", none, "R", "C", "techno", .published, 0, 100, 46, 14⟩],
          [⟨"e1", "u1"⟩], [⟨"r1", "e1", "u1", 3⟩], [⟨"c1", "e1"⟩], [⟨"i1", "e1"⟩]⟩).1 =
          .deleted
      ∧ (deleteEventRoute true "org" true "e1" 200
        ⟨[⟨"e1", "org", "T", none, "R", "C", "techno", .published, 0, 100, 46, 14⟩],
          [⟨"e1", "u1"⟩], [⟨"r1", "e1", "u1", 3⟩], [⟨"c1", "e1"⟩], [⟨"i1", "e1"⟩]⟩).2 =
          cascadeDeleteEvent "e1"
            ⟨[⟨"e1", "org", "T", none, "R", "C", "techno", .published, 0, 100, 46, 14⟩],
              [⟨"e1", "u1"⟩], [⟨"r1", "e1", "u1", 3⟩], [⟨"c1", "e1"⟩], [⟨"i1", "e1"⟩]⟩) :=
  deleteEventRoute_ended_policy
    ⟨[⟨"e1", "org", "T", none, "R", "C", "techno", .published, 0, 100, 46, 14⟩],
      [⟨"e1", "u1"⟩], [⟨"r1", "e1", "u1", 3⟩], [⟨"c1", "e1"⟩], [⟨"i1", "e1"⟩]⟩
    "e1" "org" ⟨"e1", "org", "T", none, "R", "C", "techno", .published, 0, 100, 46, 14⟩
    200 (by rfl) (by norm_num)

/-- C4: submitting a rating when one already exists for the same
(event, user) pair yields the already-rated conflict and leaves the
table unchanged, and — for every input whatsoever — the rating route
preserves the at-most-one-rating-per-(event, user) invariant, which is
enforced by the storage-level unique index modelled in
`dbInsertRatingUnique` (the route itself has no application-side
pre-check). -/
theorem postRatingRoute_unique (auth : Bool) (newId eventId userId : String)
    (value : ℚ) (eventExists isGoing : Bool) (endsAt now : ℤ)
    (rs : List RatingRow) :
    (auth = true → validateRating value = true → eventExists = true →
      isGoing = true → isInInteractionWindow endsAt now = true →
      hasRatingFor rs eventId userId = true →
      postRatingRoute auth newId eventId userId value eventExists isGoing
        endsAt now rs = (.conflict, rs))
    ∧ (rs.Pairwise (fun a b => ¬(a.eventId = b.eventId ∧ a.userId = b.userId)) →
      (postRatingRoute auth newId eventId userId value eventExists isGoing
        endsAt now rs).2.Pairwise
        (fun a b => ¬(a.eventId = b.eventId ∧ a.userId = b.userId))) := by
  constructor
  · rintro rfl hv rfl rfl hw hdup
    simp [postRatingRoute, hv, hw, dbInsertRatingUnique, hdup]
  · intro hp
    have hp2 : rs.Pairwise (fun a b => a.eventId = b.eventId → ¬a.userId = b.userId) :=
      hp.imp (fun h h1 h2 => h ⟨h1, h2⟩)
    unfold postRatingRoute
    by_cases ha : auth = true
    case neg => simp [ha]; exact hp2
    by_cases hv : validateRating value = true
    case neg => simp [ha, hv]; exact hp2
    by_cases he : eventExists = true
    case neg => simp [ha, hv, he]; exact hp2
    by_cases hg : isGoing = true
    case neg => simp [ha, hv, he, hg]; exact hp2
    by_cases hw : isInInteractionWindow endsAt now = true
    case neg => simp [ha, hv, he, hg, hw]; exact hp2
    by_cases hdup : hasRatingFor rs eventId userId = true
    · simp [ha, hv, he, hg, hw, dbInsertRatingUnique, hdup]; exact hp2
    · have hdupf : hasRatingFor rs eventId userId = false :=
        Bool.eq_false_iff.mpr hdup
      have hall : ∀ r ∈ rs, r.eventId = eventId → ¬r.userId = userId := by
        intro r hr h1 h2
        have hr2 : hasRatingFor rs eventId userId = true := by
          simp only [hasRatingFor, List.any_eq_true, Bool.and_eq_true, beq_iff_eq]
          exact ⟨r, hr, h1, h2⟩
        rw [hdupf] at hr2
        exact Bool.false_ne_true hr2
      simp [ha, hv, he, hg, hw, dbInsertRatingUnique, hdupf]
      rw [List.pairwise_append]
      refine ⟨hp2, by simp, ?_⟩
      intro a ha2 b hb
      simp only [List.mem_singleton] at hb
      subst hb
      intro h1 h2
      exact hall a ha2 h1 h2

/-- Witness for C4: with one existing rating by "u1" on "e1", a second
valid submission by the same user conflicts and the table is unchanged. -/
theorem postRatingRoute_unique_witness :
    postRatingRoute true "r2" "e1" "u1" 4 true true 0 0 [⟨"r1", "e1", "u1", 3⟩]
      = (.conflict, [⟨"r1", "e1", "u1", 3⟩]) :=
  (postRatingRoute_unique true "r2" "e1" "u1" 4 true true 0 0
      [⟨"r1", "e1", "u1", 3⟩]).1 rfl
    (by simp only [validateRating, mathRound, Bool.and_eq_true, decide_eq_true_eq]
        norm_num [Int.floor_eq_iff])
    rfl rfl (by decide) (by decide)

/-- C9: for every bucket and nonempty stored reference the resolver
yields a display value in every case (all fallible service calls are
`Option`-valued inputs, so no branch can throw); a reference that is
already a signed URL for the target bucket is returned unchanged with
the cache untouched; and when the signing call and the public-URL
fallback both fail (with nothing cached), the original input value is
returned unchanged. -/
theorem resolveStorageUrl_spec (bucket value : String) (expiresIn : Option ℕ)
    (cache : List (String × CacheEntry)) (nowMs : ℕ)
    (signResult publicResult : Option String) :
    ((value == "") = false →
      jsStartsWith value "http" = true →
      containsMarker value (signedMarker bucket) = true →
      resolveStorageUrl bucket value expiresIn cache nowMs signResult publicResult
        = (some value, cache))
    ∧ ((value == "") = false →
      (resolveStorageUrl bucket value expiresIn [] nowMs none none).1 = some value)
    ∧ ((value == "") = false →
      ∃ u, (resolveStorageUrl bucket value expiresIn cache nowMs signResult
        publicResult).1 = some u) := by
  refine ⟨?_, ?_, ?_⟩
  · intro h0 h1 h2
    simp [resolveStorageUrl, h0, h1, h2]
  · intro h0
    by_cases hs : (jsStartsWith value "http" && containsMarker value (signedMarker bucket)) = true
    · simp [resolveStorageUrl, h0, hs]
    · cases htry : tryExtractBucketPath bucket value with
      | none => simp [resolveStorageUrl, h0, hs, htry]
      | some path => simp [resolveStorageUrl, h0, hs, htry, cacheGet, resolveViaServices]
  · intro h0
    by_cases hs : (jsStartsWith value "http" && containsMarker value (signedMarker bucket)) = true
    · exact ⟨value, by simp [resolveStorageUrl, h0, hs]⟩
    · cases htry : tryExtractBucketPath bucket value with
      | none => exact ⟨value, by simp [resolveStorageUrl, h0, hs, htry]⟩
      | some path =>
        cases hc : cacheGet cache
            (cacheKeyStr bucket path (expiresIn.getD DEFAULT_EXPIRES_IN)) with
        | some entry =>
          by_cases hm : (nowMs + 30000 < entry.expiresAtMs)
          · exact ⟨entry.url, by simp [resolveStorageUrl, h0, hs, htry, hc, hm]⟩
          · cases hsr : signResult with
            | some u =>
              exact ⟨u, by simp [resolveStorageUrl, h0, hs, htry, hc, hm, hsr,
                resolveViaServices]⟩
            | none =>
              cases hpr : publicResult with
              | some u =>
                exact ⟨u, by simp [resolveStorageUrl, h0, hs, htry, hc, hm, hsr, hpr,
                  resolveViaServices]⟩
              | none =>
                exact ⟨value, by simp [resolveStorageUrl, h0, hs, htry, hc, hm, hsr, hpr,
                  resolveViaServices]⟩
        | none =>
          cases hsr : signResult with
          | some u =>
            exact ⟨u, by simp [resolveStorageUrl, h0, hs, htry, hc, hsr,
              resolveViaServices]⟩
          | none =>
            cases hpr : publicResult with
            | some u =>
              exact ⟨u, by simp [resolveStorageUrl, h0, hs, htry, hc, hsr, hpr,
                resolveViaServices]⟩
            | none =>
              exact ⟨value, by simp [resolveStorageUrl, h0, hs, htry, hc, hsr, hpr,
                resolveViaServices]⟩

/-- Witness for C9: an already-signed URL for bucket "event-posters" is
returned unchanged; a bare path resolves to itself when both services
fail; and the resolver yields a value for it. -/
theorem resolveStorageUrl_spec_witness :
    (resolveStorageUrl "event-posters"
        "https://x.supabase.co/storage/v1/object/sign/event-posters/a.png?token=t"
        none [] 0 none none
      = (some "https://x.supabase.co/storage/v1/object/sign/event-posters/a.png?token=t", []))
    ∧ (resolveStorageUrl "event-posters" "a.png" none [] 0 none none).1 = some "a.png"
    ∧ ∃ u, (resolveStorageUrl "event-posters" "a.png" none [] 0 none none).1 = some u :=
  ⟨(resolveStorageUrl_spec "event-posters"
      "https://x.supabase.co/storage/v1/object/sign/event-posters/a.png?token=t"
      none [] 0 none none).1 (by decide) (by decide) (by decide),
   (resolveStorageUrl_spec "event-posters" "a.png" none [] 0 none none).2.1 (by decide),
   (resolveStorageUrl_spec "event-posters" "a.png" none [] 0 none none).2.2 (by decide)⟩

/-- C8 counterexample: with nothing persisted, permission granted, a
failing device read and "Ljubljana" as the selected city, the resolver
returns the country-level Slovenia coordinate even though the city table
has an entry for the normalized key, so the claimed try-in-order chain
(device, then city table, then country) does not hold. -/
theorem loadLocation_gps_failure_skips_city :
    loadLocation none true none (some "Ljubljana") = sloveniaCoords
    ∧ coordsForCity (some "Ljubljana") = some ⟨46.0569, 14.5058⟩
    ∧ sloveniaCoords ≠ (⟨46.0569, 14.5058⟩ : LatLng) := by
  refine ⟨rfl, rfl, ?_⟩
  simp only [sloveniaCoords, ne_eq, LatLng.mk.injEq, not_and]
  intro h
  norm_num at h

/-- C8 amended: the resolver always returns a coordinate — a persisted
coordinate wins outright; otherwise, with permission granted, a
successful device read wins and a failing device read falls through
directly to the country-level Slovenia fallback (skipping the city
table); with permission denied, the normalized-city table entry wins
when present and the Slovenia fallback applies otherwise. -/
theorem loadLocation_resolution :
    (∀ (c : LatLng) (granted : Bool) (gps : Option LatLng) (city : Option String),
      loadLocation (some c) granted gps city = c)
    ∧ (∀ (c : LatLng) (city : Option String), loadLocation none true (some c) city = c)
    ∧ (∀ city : Option String, loadLocation none true none city = sloveniaCoords)
    ∧ (∀ (gps : Option LatLng) (city : Option String),
      loadLocation none false gps city = (coordsForCity city).getD sloveniaCoords) := by
  refine ⟨fun c granted gps city => rfl, fun c city => rfl, fun city => rfl, ?_⟩
  intro gps city
  simp only [loadLocation]
  cases coordsForCity city <;> simp

theorem filterMap_id_replicate_none (n : ℕ) :
    (List.replicate n (none : Option ℚ)).filterMap id = [] := by
  induction n with
  | zero => rfl
  | succ n ih => simp [List.replicate_succ, ih]

theorem length_cast_le_sum (l : List ℚ) (h : ∀ r ∈ l, 1 ≤ r) :
    (l.length : ℚ) ≤ l.sum := by
  induction l with
  | nil => simp
  | cons a t ih =>
    have ha : 1 ≤ a := h a (List.mem_cons_self a t)
    have ht : (t.length : ℚ) ≤ t.sum := ih (fun r hr => h r (List.mem_cons_of_mem a hr))
    simp only [List.length_cons, List.sum_cons]
    push_cast
    linarith

theorem replicate_smul_div (s : ℚ) (n k : ℕ) (hk : 1 ≤ k) :
    (k • s) / ((k * n : ℕ) : ℚ) = s / (n : ℚ) := by
  have hkq : ((k : ℕ) : ℚ) ≠ 0 := by
    have : (0 : ℚ) < k := by exact_mod_cast Nat.lt_of_lt_of_le Nat.zero_lt_one hk
    exact ne_of_gt this
  rw [nsmul_eq_mul, Nat.cast_mul, mul_div_mul_left _ _ hkq]

/-- C6: the joined-and-grouped average-rating read returns null for an
event with zero ratings and otherwise the arithmetic mean of the
event's ratings, for every going count — the duplication of each rating
across the going left join does not change the mean, and no running
average is stored anywhere in the model. -/
theorem feedAvgRating_spec (goingCount : ℕ) (ratings : List ℚ)
    (hval : ∀ r ∈ ratings, 1 ≤ r) :
    feedAvgRating goingCount ratings =
      if ratings.isEmpty then none
      else some (ratings.sum / ratings.length) := by
  by_cases hr : ratings.isEmpty
  · simp [feedAvgRating, groupRatingColumn, sqlAvg, hr, filterMap_id_replicate_none]
  · have hrf : ratings.isEmpty = false := Bool.eq_false_iff.mpr hr
    have hlen : ratings.length ≠ 0 := by
      cases ratings with
      | nil => simp at hrf
      | cons a t => simp
    have hvs : (((List.replicate (max 1 goingCount) ratings).flatten).map some).filterMap
        (id : Option ℚ → Option ℚ) = (List.replicate (max 1 goingCount) ratings).flatten := by
      simp [List.filterMap_map]
    have hsum : ((List.replicate (max 1 goingCount) ratings).flatten).sum =
        (max 1 goingCount) • ratings.sum := by
      rw [List.sum_flatten]
      simp [List.map_replicate, List.sum_replicate]
    have hlength : ((List.replicate (max 1 goingCount) ratings).flatten).length =
        (max 1 goingCount) * ratings.length := by
      rw [List.length_flatten]
      simp [List.map_replicate, List.sum_replicate, smul_eq_mul]
    have hkposn : 1 ≤ max 1 goingCount := le_max_left 1 goingCount
    have hne : ((List.replicate (max 1 goingCount) ratings).flatten) ≠ [] := by
      intro hcon
      have hlz : (max 1 goingCount) * ratings.length = 0 := by
        have := congrArg List.length hcon
        rw [hlength] at this
        simpa using this
      rcases Nat.mul_eq_zero.mp hlz with h | h
      · omega
      · exact hlen h
    have hvsne : ((List.replicate (max 1 goingCount) ratings).flatten).isEmpty = false := by
      cases hflat : (List.replicate (max 1 goingCount) ratings).flatten with
      | nil => exact absurd hflat hne
      | cons a t => rfl
    have hpos : (0 : ℚ) < ratings.sum / (ratings.length : ℚ) := by
      have h1 : (1 : ℚ) ≤ (ratings.length : ℚ) := by
        exact_mod_cast Nat.one_le_iff_ne_zero.mpr hlen
      have h2 : (ratings.length : ℚ) ≤ ratings.sum := length_cast_le_sum ratings hval
      exact div_pos (by linarith) (by linarith)
    have hsql : sqlAvg (groupRatingColumn goingCount ratings) =
        some (ratings.sum / (ratings.length : ℚ)) := by
      simp only [groupRatingColumn, hrf, Bool.false_eq_true, if_false, sqlAvg, hvs]
      simp only [hvsne, Bool.false_eq_true, if_false]
      rw [hsum, hlength]
      exact congrArg some (replicate_smul_div ratings.sum ratings.length _ hkposn)
    simp [feedAvgRating, hsql, hrf, hpos.ne']

/-- Witness for C6: two going rows and ratings 3 and 4 average to 7/2. -/
theorem feedAvgRating_spec_witness :
    feedAvgRating 2 [3, 4] = some (7 / 2) := by
  have h := feedAvgRating_spec 2 [3, 4] (by
    intro r hr
    simp only [List.mem_cons, List.not_mem_nil, or_false] at hr
    rcases hr with rfl | rfl <;> norm_num)
  rw [h]
  norm_num

/-- C2: every event in the backend general-feed result, and every event
in the frontend feed query result, has status published — for every
filter combination (and in the backend case every viewer coordinate and
distance function). -/
theorem feed_only_published :
    (∀ (dist : LatLng → LatLng → ℚ) (viewer : LatLng) (f : Filters)
        (events : List EventRec) (e : EventRec),
      e ∈ backendFeed dist viewer f events → e.status = EventStatus.published)
    ∧ (∀ (organizerFilter : Option String) (now : ℤ) (f : Filters)
        (events : List EventRec) (e : EventRec),
      e ∈ frontendFetchEvents organizerFilter now f events →
        e.status = EventStatus.published) := by
  constructor
  · intro dist viewer f events e he
    unfold backendFeed at he
    have hperm := List.perm_insertionSort
      (fun a b : EventRec =>
        decide (dist viewer ⟨a.lat, a.lng⟩ ≤ dist viewer ⟨b.lat, b.lng⟩) = true)
      (events.filter (feedWhere f))
    have hmem : e ∈ events.filter (feedWhere f) := by
      refine hperm.mem_iff.mp ?_
      simpa using he
    have hcond : feedWhere f e = true := (List.mem_filter.mp hmem).2
    simp only [feedWhere, Bool.and_eq_true, beq_iff_eq] at hcond
    exact hcond.1.1.1.1
  · intro organizerFilter now f events e he
    have hcond : frontendFeedWhere organizerFilter now f e = true :=
      (List.mem_filter.mp he).2
    simp only [frontendFeedWhere, Bool.and_eq_true, beq_iff_eq] at hcond
    exact hcond.1

/-- Witness for C2 at a one-event database with no filters: the returned
event is published. -/
theorem feed_only_published_witness :
    (⟨"e1", "o", "T", none, "R", "C", "techno", .published, 0, 100, 46, 14⟩
      : EventRec).status = EventStatus.published :=
  feed_only_published.1 (fun _ _ => 0) ⟨46, 14⟩ ⟨none, none, none, none⟩
    [⟨"e1", "o", "T", none, "R", "C", "techno", .published, 0, 100, 46, 14⟩]
    ⟨"e1", "o", "T", none, "R", "C", "techno", .published, 0, 100, 46, 14⟩
    (by
      have h : backendFeed (fun _ _ => 0) ⟨46, 14⟩ ⟨none, none, none, none⟩
          [⟨"e1", "o", "T", none, "R", "C", "techno", .published, 0, 100, 46, 14⟩]
          = [⟨"e1", "o", "T", none, "R", "C", "techno", .published, 0, 100, 46, 14⟩] :=
        rfl
      rw [h]
      exact List.mem_singleton.mpr rfl)

theorem optDistLE_total (a b : Option ℚ) :
    optDistLE a b = true ∨ optDistLE b a = true := by
  cases a <;> cases b <;> simp [optDistLE]
  exact le_total _ _

theorem optDistLE_trans (a b c : Option ℚ) (h1 : optDistLE a b = true)
    (h2 : optDistLE b c = true) : optDistLE a c = true := by
  cases a <;> cases b <;> cases c <;> simp_all [optDistLE]
  exact le_trans h1 h2

theorem optDistLE_none_left (b : Option ℚ) :
    optDistLE none b = true ↔ b = none := by
  cases b <;> simp [optDistLE]

theorem filter_orderedInsert_pos {α : Type} (r : α → α → Prop) [DecidableRel r]
    (p : α → Bool) (x : α) (hx : p x = true)
    (hr : ∀ y, r x y ↔ p y = true) :
    ∀ l : List α, (List.orderedInsert r x l).filter p = x :: l.filter p
  | [] => by simp [List.orderedInsert, hx]
  | y :: ys => by
    by_cases h : r x y
    · simp [List.orderedInsert, h, hx]
    · have hpy : p y = false := by
        rcases Bool.eq_false_or_eq_true (p y) with ht | hf
        · exact absurd ((hr y).mpr ht) h
        · exact hf
      simp [List.orderedInsert, h, hpy,
        filter_orderedInsert_pos r p x hx hr ys]

theorem filter_orderedInsert_neg {α : Type} (r : α → α → Prop) [DecidableRel r]
    (p : α → Bool) (x : α) (hx : p x = false) :
    ∀ l : List α, (List.orderedInsert r x l).filter p = l.filter p
  | [] => by simp [List.orderedInsert, hx]
  | y :: ys => by
    by_cases h : r x y
    · simp [List.orderedInsert, h, hx]
    · cases hpy : p y <;>
        simp [List.orderedInsert, h, hpy,
          filter_orderedInsert_neg r p x hx ys]

theorem filter_insertionSort_eq {α : Type} (r : α → α → Prop) [DecidableRel r]
    (p : α → Bool) (hkey : ∀ x y, p x = true → (r x y ↔ p y = true)) :
    ∀ l : List α, (List.insertionSort r l).filter p = l.filter p
  | [] => rfl
  | x :: xs => by
    cases hx : p x with
    | true =>
      rw [List.insertionSort,
        filter_orderedInsert_pos r p x hx (fun y => hkey x y hx),
        filter_insertionSort_eq r p hkey xs]
      simp [List.filter_cons, hx]
    | false =>
      rw [List.insertionSort,
        filter_orderedInsert_neg r p x hx,
        filter_insertionSort_eq r p hkey xs]
      simp [List.filter_cons, hx]

/-- C7: for every distance function, viewer coordinate and input list,
the ranked feed is pairwise ordered by the comparator (ascending
distance, with undeterminable coordinates as plus infinity), events
without a determinable coordinate never precede ones with a distance,
the undeterminable events keep their relative input order, and the
result is a permutation of the input. -/
theorem rankEvents_spec (dist : LatLng → LatLng → ℚ) (viewer : LatLng)
    (events : List FeedEvent) :
    (rankEvents dist viewer events).Pairwise
      (fun a b => optDistLE (distKey dist viewer a) (distKey dist viewer b) = true)
    ∧ (rankEvents dist viewer events).Pairwise
      (fun a b => distKey dist viewer a = none → distKey dist viewer b = none)
    ∧ (rankEvents dist viewer events).filter
        (fun e => (distKey dist viewer e).isNone)
      = events.filter (fun e => (distKey dist viewer e).isNone)
    ∧ (rankEvents dist viewer events).Perm events := by
  haveI : IsTotal FeedEvent
      (fun a b => optDistLE (distKey dist viewer a) (distKey dist viewer b) = true) :=
    ⟨fun a b => optDistLE_total _ _⟩
  haveI : IsTrans FeedEvent
      (fun a b => optDistLE (distKey dist viewer a) (distKey dist viewer b) = true) :=
    ⟨fun a b c => optDistLE_trans _ _ _⟩
  have hsorted := List.sorted_insertionSort
    (fun a b => optDistLE (distKey dist viewer a) (distKey dist viewer b) = true)
    events
  refine ⟨hsorted, ?_, ?_, ?_⟩
  · refine hsorted.imp ?_
    intro a b hab hka
    rw [hka] at hab
    exact (optDistLE_none_left _).mp hab
  · refine filter_insertionSort_eq _ _ ?_ events
    intro x y hx
    have hkx : distKey dist viewer x = none := Option.isNone_iff_eq_none.mp hx
    rw [hkx, optDistLE_none_left, Option.isNone_iff_eq_none]
  · exact List.perm_insertionSort _ events
